import Mathlib

/-!
Shallow embedding of `src/library.py` (a single-file library catalog
manager) and proofs about the claims of its specification.

Conventions of the embedding:
  * Python strings are Lean `String`s; character-level work happens on
    `String.toList`.
  * Python `int` is `ℤ` (arbitrary precision).
  * Timestamps are `ℤ` seconds; `timedelta(days = 14)` is `14 * 86400`
    seconds and `timedelta.days` is flooring division by `86400`
    (`Int.fdiv`), exactly as Python floors `timedelta` components.
  * In-place mutation of `Book` objects and of the `Library` object is
    modelled by explicit state passing: each operation returns the new
    state together with a result describing what the source would print.
  * `input()` values appear as explicit parameters (already `.strip()`ed,
    since the source strips every query at the prompt); `print` output is
    modelled by result values; `random.randint` is an injectable stream
    `ℕ → ℕ` of successive draws, as the spec's design notes direct.
  * The CSV file is a list of rows, each row the five string fields the
    `csv` module would write/read back for one record (the `csv` module
    round-trips arbitrary field strings, so quoting is transparent here).
-/

/-! ## Characters and strings: Python primitives used by the source -/

/-- Whitespace stripped by Python's `int(str)` conversion (ASCII part). -/
def isPySpace (c : Char) : Bool :=
  c = ' ' || c = '\t' || c = '\n' || c = '\r' || c = '\x0b' || c = '\x0c'

/-- Python's `str.lower()` on one character (ASCII part, which is all the
source's data ever needs). -/
def py_lower_char (c : Char) : Char :=
  if 'A' ≤ c && c ≤ 'Z' then Char.ofNat (c.toNat + 32) else c

/-- Python's `str.lower()`. -/
def py_lower (s : String) : String := ⟨s.toList.map py_lower_char⟩

/-- Python's substring test `needle in hay` on strings (contiguous
substring; the empty needle is contained in everything). -/
def isSubstring (needle hay : List Char) : Bool :=
  needle.isPrefixOf hay ||
    (match hay with
     | [] => false
     | _ :: t => isSubstring needle t)

/-! ## Python `int(string)` and `str(int)` -/

/-- Numeric value of a decimal digit character. -/
def charVal (c : Char) : ℕ := c.toNat - '0'.toNat

/-- Tail of Python's `digitpart ::= digit (["_"] digit)*`: after an
accepted digit, each later position is a digit, optionally preceded by a
single underscore separator. -/
def digitTail : List Char → Bool
  | [] => true
  | c :: rest =>
    if c = '_' then
      match rest with
      | [] => false
      | c2 :: rest2 => c2.isDigit && digitTail rest2
    else c.isDigit && digitTail rest

/-- Python's `digitpart`: nonempty, starts with a digit, underscores only
between digits. -/
def validRun (l : List Char) : Bool :=
  match l with
  | [] => false
  | c :: rest => c.isDigit && digitTail rest

/-- Value of a digit run, underscores skipped. -/
def runVal (l : List Char) : ℕ :=
  (l.filter (fun c => !(c == '_'))).foldl (fun a c => a * 10 + charVal c) 0

/-- Parses an unsigned digit run followed by optional trailing
whitespace, as the body of Python's `int(str)`. -/
def parseRun (l : List Char) : Option ℕ :=
  let ds := l.takeWhile (fun c => c.isDigit || c == '_')
  let rest := l.drop ds.length
  if validRun ds && rest.all isPySpace then some (runVal ds) else none

/-- Sign handling of Python's `int(str)` after leading whitespace. -/
def pyIntCore : List Char → Option ℤ
  | [] => none
  | c :: rest =>
    if c = '-' then (parseRun rest).map (fun n => -(Int.ofNat n))
    else if c = '+' then (parseRun rest).map (fun n => Int.ofNat n)
    else (parseRun (c :: rest)).map (fun n => Int.ofNat n)

/-- Python's `int(str)` on character lists: optional surrounding
whitespace, optional sign, decimal digit run (with underscore
separators); `none` models the `ValueError` raised on anything else. -/
def pyIntChars (l : List Char) : Option ℤ :=
  pyIntCore (l.dropWhile isPySpace)

/-- Python's `int(str)`: `some` the parsed value, `none` for `ValueError`. -/
def pyInt (s : String) : Option ℤ := pyIntChars s.toList

/-- Decimal digits of `n`, most significant first, by fuel-guarded
division (the fuel is only a termination device: `fuel ≥ n` suffices). -/
def natCharsAux : ℕ → ℕ → List Char
  | 0, _ => []
  | fuel + 1, n =>
    if n = 0 then [] else natCharsAux fuel (n / 10) ++ [Nat.digitChar (n % 10)]

/-- Python's `str` on a nonnegative integer. -/
def natChars (n : ℕ) : List Char :=
  if n = 0 then ['0'] else natCharsAux n n

/-- Python's `str(int)` on character lists: minus sign for negatives,
then decimal digits without padding. -/
def intChars (i : ℤ) : List Char :=
  if i < 0 then '-' :: natChars i.natAbs else natChars i.natAbs

/-- Python's `str` on a nonnegative integer, as a `String`. -/
def natStr (n : ℕ) : String := ⟨natChars n⟩

/-- Python's `str(int)` as a `String`. -/
def intStr (i : ℤ) : String := ⟨intChars i⟩

/-! ## The `Book` class -/

/-- One catalog record, the fields of Python's `Book` objects. -/
structure Book where
  book_id : String
  title : String
  author : String
  total_copies : ℤ
  available_copies : ℤ
deriving DecidableEq

/-- `Book.__init__`: `str(book_id)` on a string is the identity; the two
copy counts go through `int(...)` inside one `try`, and a `ValueError`
from either conversion sets both counts to `0`. -/
def mkBook (book_id title author : String) (total_copies available_copies : String) : Book :=
  match pyInt total_copies, pyInt available_copies with
  | some t, some a => ⟨book_id, title, author, t, a⟩
  | _, _ => ⟨book_id, title, author, 0, 0⟩

/-- `Book.check_out`: decrement `available_copies` if positive and report
success; otherwise leave the book unchanged and report failure. -/
def check_out (b : Book) : Book × Bool :=
  if 0 < b.available_copies then
    ({ b with available_copies := b.available_copies - 1 }, true)
  else (b, false)

/-- `Book.check_in`: increment `available_copies` if below
`total_copies` and report success; otherwise leave the book unchanged and
report failure. -/
def check_in (b : Book) : Book × Bool :=
  if b.available_copies < b.total_copies then
    ({ b with available_copies := b.available_copies + 1 }, true)
  else (b, false)

/-- The record invariant stated by the specification. -/
def bookInv (b : Book) : Prop :=
  0 ≤ b.available_copies ∧ b.available_copies ≤ b.total_copies

instance (b : Book) : Decidable (bookInv b) := by
  unfold bookInv; exact inferInstance

/-! ## File format: save and load -/

/-- One persisted CSV data row: the five string fields of a record in
column order `BookID, Title, Author, TotalCopies, AvailableCopies`. -/
structure Row where
  BookID : String
  Title : String
  Author : String
  TotalCopies : String
  AvailableCopies : String
deriving DecidableEq

/-- The header row `writer.writeheader()` emits. -/
def headerRow : Row :=
  ⟨"BookID", "Title", "Author", "TotalCopies", "AvailableCopies"⟩

/-- `Book.to_dict` composed with the CSV writer's stringification of the
two integer fields. -/
def bookToRow (b : Book) : Row :=
  ⟨b.book_id, b.title, b.author, intStr b.total_copies, intStr b.available_copies⟩

/-- `Library.save_books`: full-file rewrite, a header row followed by one
row per current book, in current in-memory order. -/
def save_books (books : List Book) : List Row :=
  headerRow :: books.map bookToRow

/-- `Library._load_books`: skip the header row, turn every remaining row
into a `Book` through `Book.__init__`.  (An absent or empty file yields
the empty collection; `Row` models complete five-field rows, the only
kind `save_books` ever writes.) -/
def load_books (file : List Row) : List Book :=
  match file with
  | [] => []
  | _ :: rows =>
    rows.map (fun r => mkBook r.BookID r.Title r.Author r.TotalCopies r.AvailableCopies)

/-! ## The `Library` class -/

/-- Library state: the ordered book collection and the issued-loan map
`book_id ↦ (issue timestamp, due timestamp)`, the Python dict modelled as
an association list in insertion order. -/
structure LibState where
  books : List Book
  issued : List (String × ℤ × ℤ)
deriving DecidableEq

/-- Dict read `issued_books[k]` / membership `k in issued_books`. -/
def loanLookup (m : List (String × ℤ × ℤ)) (k : String) : Option (ℤ × ℤ) :=
  (m.find? (fun p => p.1 == k)).map Prod.snd

/-- Dict write `issued_books[k] = v`: update the entry in place if the
key is present, otherwise append a new entry. -/
def loanInsert (m : List (String × ℤ × ℤ)) (k : String) (v : ℤ × ℤ) :
    List (String × ℤ × ℤ) :=
  if m.any (fun p => p.1 == k) then
    m.map (fun p => if p.1 == k then (k, v) else p)
  else m ++ [(k, v)]

/-- Dict removal `issued_books.pop(k)` (the state part). -/
def loanErase (m : List (String × ℤ × ℤ)) (k : String) : List (String × ℤ × ℤ) :=
  m.filter (fun p => !(p.1 == k))

/-- The per-book test of `Library._find_book`: the lowered query equals
the lowered id, or is a substring of the lowered title. -/
def bookMatches (ql : String) (b : Book) : Bool :=
  ql == py_lower b.book_id || isSubstring ql.toList (py_lower b.title).toList

/-- Linear scan of `Library._find_book`, also reporting the position of
the first match so that state passing can write the book back. -/
def findAux (ql : String) : List Book → ℕ → Option (ℕ × Book)
  | [], _ => none
  | b :: rest, i => if bookMatches ql b then some (i, b) else findAux ql rest (i + 1)

/-- `Library._find_book`: first book whose id equals the query or whose
title contains it, case-insensitively; `none` for "not found". -/
def find_book (books : List Book) (q : String) : Option (ℕ × Book) :=
  findAux (py_lower q) books 0

/-- `Library.search_book`: an empty (stripped) query returns immediately
with nothing displayed (`none`); otherwise all books whose id or title
contains the lowered query, in collection order. -/
def search_book (books : List Book) (q : String) : Option (List Book) :=
  if q = "" then none
  else some (books.filter (fun b =>
    isSubstring (py_lower q).toList (py_lower b.book_id).toList ||
      isSubstring (py_lower q).toList (py_lower b.title).toList))

/-- What `Library.issue_book` prints. -/
inductive IssueResult
  | notFound
  | issued (dueDate : ℤ)
  | allOut (title : String)
deriving DecidableEq

/-- The loan period, `timedelta(days = 14)` in seconds. -/
def duePeriod : ℤ := 14 * 86400

/-- `Library.issue_book` on query `q` at time `now`: resolve via
`_find_book`; on success of `check_out` store the loan (overwriting any
previous entry for the id) and report the due date; report `allOut` with
no state change when no copy is available. -/
def issue_book (s : LibState) (q : String) (now : ℤ) : LibState × IssueResult :=
  match find_book s.books q with
  | none => (s, .notFound)
  | some (i, b) =>
    let ob := check_out b
    if ob.2 then
      let due := now + duePeriod
      ({ books := s.books.set i ob.1,
         issued := loanInsert s.issued b.book_id (now, due) }, .issued due)
    else (s, .allOut b.title)

/-- What `Library.return_book` prints. -/
inductive ReturnResult
  | notFound
  | notIssuedNoRepair
  | notIssuedRepaired
  | returned (fine : ℤ)
  | cannotReturn
deriving DecidableEq

/-- `Library.return_book` on query `q` at time `now`: resolve via
`_find_book`; with no loan entry, best-effort `check_in` repair when
possible; with a loan entry and a successful `check_in`, remove the entry
and report the fine `(now - due).days * 10` when overdue, `0` otherwise;
with a failed `check_in`, keep the entry and report the error. -/
def return_book (s : LibState) (q : String) (now : ℤ) : LibState × ReturnResult :=
  match find_book s.books q with
  | none => (s, .notFound)
  | some (i, b) =>
    match loanLookup s.issued b.book_id with
    | none =>
      if b.available_copies < b.total_copies then
        ({ s with books := s.books.set i (check_in b).1 }, .notIssuedRepaired)
      else (s, .notIssuedNoRepair)
    | some (_iss, due) =>
      let ib := check_in b
      if ib.2 then
        ({ books := s.books.set i ib.1, issued := loanErase s.issued b.book_id },
         .returned (if due < now then Int.fdiv (now - due) 86400 * 10 else 0))
      else (s, .cannotReturn)

/-- `Library.add_book` after its input boundary: the id comes from
`_get_next_id`, the copy count has been validated positive by the
re-prompt loop, and the new book starts with
`available_copies = total_copies`. -/
def add_book (books : List Book) (book_id title author : String) (total_copies : ℤ) :
    List Book :=
  books ++ [⟨book_id, title, author, total_copies, total_copies⟩]

/-- The id set `_get_next_id` checks candidates against. -/
def existingIds (books : List Book) : List String :=
  books.map (fun b => b.book_id)

/-- `Library._get_next_id`: draw `random.randint(1000, 9999)` values from
the injected stream `r` until one stringifies to an id not in use.  The
hypothesis is exactly the termination condition of the unbounded
`while True` retry loop: some draw is free. -/
def get_next_id (books : List Book) (r : ℕ → ℕ)
    (h : ∃ i, natStr (r i) ∉ existingIds books) : String :=
  natStr (r (Nat.find h))

/-- The fine schedule the specification states: `max(0, overdueDays)`
times 10 monetary units, `overdueDays` the whole days by which `now`
exceeds the due timestamp, `0` when not overdue. -/
def specOverdueDays (now due : ℤ) : ℤ :=
  if due < now then (now - due) / 86400 else 0

/-! ## Facts about decimal printing and `int` parsing -/

theorem digitChar_facts (d : ℕ) (hd : d < 10) :
    (Nat.digitChar d).isDigit = true ∧ isPySpace (Nat.digitChar d) = false ∧
      Nat.digitChar d ≠ '-' ∧ Nat.digitChar d ≠ '+' ∧ Nat.digitChar d ≠ '_' ∧
      charVal (Nat.digitChar d) = d := by
  interval_cases d <;> decide

theorem natCharsAux_eq (fuel n : ℕ) (h : n ≤ fuel) :
    natCharsAux fuel n = ((Nat.digits 10 n).map Nat.digitChar).reverse := by
  induction fuel generalizing n with
  | zero =>
    have hn : n = 0 := Nat.le_zero.mp h
    subst hn; simp [natCharsAux]
  | succ fuel ih =>
    by_cases hn : n = 0
    · subst hn; simp [natCharsAux]
    · have hdiv : n / 10 ≤ fuel := by
        have := Nat.div_lt_self (Nat.pos_of_ne_zero hn) (by norm_num : 1 < 10)
        omega
      rw [natCharsAux, if_neg hn, ih (n / 10) hdiv,
        Nat.digits_def' (by norm_num : 1 < 10) (Nat.pos_of_ne_zero hn)]
      simp

theorem natChars_eq (n : ℕ) (hn : n ≠ 0) :
    natChars n = ((Nat.digits 10 n).map Nat.digitChar).reverse := by
  rw [natChars, if_neg hn]
  exact natCharsAux_eq n n le_rfl

theorem natChars_mem (n : ℕ) : ∀ c ∈ natChars n, ∃ d, d < 10 ∧ c = Nat.digitChar d := by
  intro c hc
  by_cases hn : n = 0
  · subst hn
    rw [show natChars 0 = ['0'] from rfl, List.mem_singleton] at hc
    exact ⟨0, by norm_num, hc⟩
  · rw [natChars_eq n hn] at hc
    simp only [List.mem_reverse, List.mem_map] at hc
    obtain ⟨d, hd, rfl⟩ := hc
    exact ⟨d, Nat.digits_lt_base (by norm_num) hd, rfl⟩

theorem natChars_props (n : ℕ) :
    ∀ c ∈ natChars n,
      c.isDigit = true ∧ isPySpace c = false ∧ c ≠ '-' ∧ c ≠ '+' ∧ c ≠ '_' := by
  intro c hc
  obtain ⟨d, hd, rfl⟩ := natChars_mem n c hc
  have h := digitChar_facts d hd
  exact ⟨h.1, h.2.1, h.2.2.1, h.2.2.2.1, h.2.2.2.2.1⟩

theorem natChars_ne_nil (n : ℕ) : natChars n ≠ [] := by
  by_cases hn : n = 0
  · subst hn; simp [natChars]
  · rw [natChars_eq n hn]
    simp [Nat.digits_ne_nil_iff_ne_zero.mpr hn]

theorem digitTail_all (l : List Char) (h : ∀ c ∈ l, c.isDigit = true) :
    digitTail l = true := by
  induction l with
  | nil => rfl
  | cons c t ih =>
    have hc := h c (List.mem_cons_self c t)
    have hne : ¬(c = '_') := fun heq => by subst heq; exact absurd hc (by decide)
    rw [digitTail.eq_def]
    dsimp only
    rw [if_neg hne, hc, ih (fun x hx => h x (List.mem_cons_of_mem c hx))]
    rfl

theorem validRun_natChars (n : ℕ) : validRun (natChars n) = true := by
  obtain ⟨c, t, heq⟩ : ∃ c t, natChars n = c :: t := by
    cases h : natChars n with
    | nil => exact absurd h (natChars_ne_nil n)
    | cons c t => exact ⟨c, t, rfl⟩
  have hc := (natChars_props n c (by rw [heq]; exact List.mem_cons_self c t)).1
  rw [heq]
  simp only [validRun]
  rw [hc, digitTail_all t
    (fun x hx => (natChars_props n x (by rw [heq]; exact List.mem_cons_of_mem c hx)).1)]
  rfl

theorem foldl_digits (L : List ℕ) (hL : ∀ d ∈ L, d < 10) (a : ℕ) :
    ((L.map Nat.digitChar).reverse).foldl (fun acc c => acc * 10 + charVal c) a =
      a * 10 ^ L.length + Nat.ofDigits 10 L := by
  induction L generalizing a with
  | nil =>
    simp only [List.map_nil, List.reverse_nil, List.foldl_nil, List.length_nil,
      pow_zero, Nat.ofDigits_nil, mul_one, add_zero]
  | cons d L ih =>
    have hd : d < 10 := hL d (List.mem_cons_self d L)
    simp only [List.map_cons, List.reverse_cons, List.foldl_append, List.foldl_cons,
      List.foldl_nil]
    rw [ih (fun x hx => hL x (List.mem_cons_of_mem d hx)),
      (digitChar_facts d hd).2.2.2.2.2, Nat.ofDigits_cons]
    simp only [List.length_cons]
    ring

theorem runVal_natChars (n : ℕ) : runVal (natChars n) = n := by
  by_cases hn : n = 0
  · subst hn; decide
  · rw [runVal, List.filter_eq_self.mpr ?_]
    · rw [natChars_eq n hn,
        foldl_digits _ (fun d hd => Nat.digits_lt_base (by norm_num) hd) 0,
        Nat.ofDigits_digits]
      simp
    · intro c hc
      have h5 := (natChars_props n c hc).2.2.2.2
      simp only [Bool.not_eq_true', beq_eq_false_iff_ne, ne_eq]
      exact h5

theorem takeWhile_natChars (n : ℕ) :
    (natChars n).takeWhile (fun c => c.isDigit || c == '_') = natChars n :=
  List.takeWhile_eq_self_iff.mpr (fun c hc => by
    rw [(natChars_props n c hc).1]; rfl)

theorem parseRun_natChars (n : ℕ) : parseRun (natChars n) = some n := by
  simp only [parseRun, takeWhile_natChars, List.drop_length]
  rw [validRun_natChars, runVal_natChars]
  rfl

theorem dropWhileSpace_natChars (n : ℕ) :
    (natChars n).dropWhile isPySpace = natChars n := by
  obtain ⟨c, t, heq⟩ : ∃ c t, natChars n = c :: t := by
    cases h : natChars n with
    | nil => exact absurd h (natChars_ne_nil n)
    | cons c t => exact ⟨c, t, rfl⟩
  have hc := (natChars_props n c (by rw [heq]; exact List.mem_cons_self c t)).2.1
  rw [heq, List.dropWhile_cons, hc]
  simp

theorem pyIntCore_natChars (n : ℕ) : pyIntCore (natChars n) = some (n : ℤ) := by
  obtain ⟨c, t, heq⟩ : ∃ c t, natChars n = c :: t := by
    cases h : natChars n with
    | nil => exact absurd h (natChars_ne_nil n)
    | cons c t => exact ⟨c, t, rfl⟩
  have hp := natChars_props n c (by rw [heq]; exact List.mem_cons_self c t)
  rw [heq]
  simp only [pyIntCore]
  rw [if_neg hp.2.2.1, if_neg hp.2.2.2.1, ← heq, parseRun_natChars]
  rfl

theorem pyIntChars_natChars (n : ℕ) : pyIntChars (natChars n) = some (n : ℤ) := by
  rw [pyIntChars, dropWhileSpace_natChars, pyIntCore_natChars]

theorem pyInt_intStr (i : ℤ) : pyInt (intStr i) = some i := by
  show pyIntChars (intChars i) = some i
  rw [intChars]
  by_cases hi : i < 0
  · rw [if_pos hi, pyIntChars, List.dropWhile_cons,
      if_neg (by decide : ¬(isPySpace '-' = true))]
    have h1 : pyIntCore ('-' :: natChars i.natAbs) =
        (parseRun (natChars i.natAbs)).map (fun n => -(Int.ofNat n)) := by
      simp [pyIntCore]
    rw [h1, parseRun_natChars]
    simp only [Option.map_some', Option.some.injEq, Int.ofNat_eq_natCast]
    omega
  · rw [if_neg hi, pyIntChars_natChars, Int.natAbs_of_nonneg (not_lt.mp hi)]

theorem mkBook_bookToRow (b : Book) :
    mkBook (bookToRow b).BookID (bookToRow b).Title (bookToRow b).Author
      (bookToRow b).TotalCopies (bookToRow b).AvailableCopies = b := by
  show mkBook b.book_id b.title b.author (intStr b.total_copies)
      (intStr b.available_copies) = b
  rw [mkBook, pyInt_intStr, pyInt_intStr]

/-- C2: saving any collection of records and reloading it yields records
with identical id, title, author, total and available copy counts, in the
saved order — the save-then-load round-trip is the identity on the
collection. -/
theorem C2_save_load_roundtrip (books : List Book) :
    load_books (save_books books) = books := by
  show (books.map bookToRow).map
      (fun r => mkBook r.BookID r.Title r.Author r.TotalCopies r.AvailableCopies) = books
  rw [List.map_map]
  induction books with
  | nil => rfl
  | cons b t ih =>
    simp only [List.map_cons, ih, Function.comp_apply, mkBook_bookToRow]

/-! ## Facts about lookup, the loan map and the copy-count transitions -/

theorem findAux_some (ql : String) (l : List Book) (ofs i : ℕ) (b : Book)
    (h : findAux ql l ofs = some (i, b)) :
    ofs ≤ i ∧ i - ofs < l.length ∧ l[i - ofs]? = some b := by
  induction l generalizing ofs with
  | nil => simp [findAux] at h
  | cons c t ih =>
    rw [findAux] at h
    by_cases hm : bookMatches ql c
    · rw [if_pos hm] at h
      obtain ⟨rfl, rfl⟩ : ofs = i ∧ c = b := by
        have := Option.some.inj h
        exact ⟨congrArg Prod.fst this, congrArg Prod.snd this⟩
      simp
    · rw [if_neg hm] at h
      obtain ⟨h1, h2, h3⟩ := ih (ofs + 1) h
      refine ⟨by omega, by simp only [List.length_cons]; omega, ?_⟩
      have hsub : i - ofs = (i - (ofs + 1)) + 1 := by omega
      rw [hsub, List.getElem?_cons_succ]
      exact h3

theorem find_book_some (books : List Book) (q : String) (i : ℕ) (b : Book)
    (h : find_book books q = some (i, b)) :
    i < books.length ∧ books[i]? = some b := by
  obtain ⟨-, h2, h3⟩ := findAux_some (py_lower q) books 0 i b h
  simpa using And.intro h2 h3

theorem find_book_mem (books : List Book) (q : String) (i : ℕ) (b : Book)
    (h : find_book books q = some (i, b)) : b ∈ books :=
  List.getElem?_mem (find_book_some books q i b h).2

theorem find?_filter_self (t : List (String × ℤ × ℤ)) (k : String) :
    (t.filter (fun p => !(p.1 == k))).find? (fun p => p.1 == k) = none := by
  induction t with
  | nil => rfl
  | cons p t ih =>
    rw [List.filter_cons]
    by_cases hp : p.1 = k
    · rw [if_neg (by simp [hp])]
      exact ih
    · rw [if_pos (by simp [hp]), List.find?_cons_of_neg _ (by simp [hp])]
      exact ih

theorem find?_filter_other (t : List (String × ℤ × ℤ)) (k k' : String) (h : k' ≠ k) :
    (t.filter (fun p => !(p.1 == k))).find? (fun p => p.1 == k') =
      t.find? (fun p => p.1 == k') := by
  induction t with
  | nil => rfl
  | cons p t ih =>
    rw [List.filter_cons]
    by_cases hp : p.1 = k
    · rw [if_neg (by simp [hp]), ih,
        List.find?_cons_of_neg _ (by simp [hp]; exact fun hh => h hh.symm)]
    · rw [if_pos (by simp [hp])]
      by_cases hp' : p.1 = k'
      · rw [List.find?_cons_of_pos _ (by simp [hp']),
          List.find?_cons_of_pos _ (by simp [hp'])]
      · rw [List.find?_cons_of_neg _ (by simp [hp']),
          List.find?_cons_of_neg _ (by simp [hp']), ih]

theorem find?_map_update (t : List (String × ℤ × ℤ)) (k : String) (v : ℤ × ℤ)
    (k' : String) (h : k' ≠ k) :
    (t.map (fun p => if p.1 == k then (k, v) else p)).find? (fun p => p.1 == k') =
      t.find? (fun p => p.1 == k') := by
  induction t with
  | nil => rfl
  | cons p t ih =>
    rw [List.map_cons]
    by_cases hp : p.1 = k
    · rw [if_pos (by simp [hp]),
        List.find?_cons_of_neg _ (by simp; exact fun hh => h hh.symm),
        List.find?_cons_of_neg _ (by simp [hp]; exact fun hh => h hh.symm), ih]
    · rw [if_neg (by simp [hp])]
      by_cases hp' : p.1 = k'
      · rw [List.find?_cons_of_pos _ (by simp [hp']),
          List.find?_cons_of_pos _ (by simp [hp'])]
      · rw [List.find?_cons_of_neg _ (by simp [hp']),
          List.find?_cons_of_neg _ (by simp [hp']), ih]

theorem loanLookup_insert_other (m : List (String × ℤ × ℤ)) (k : String) (v : ℤ × ℤ)
    (k' : String) (h : k' ≠ k) :
    loanLookup (loanInsert m k v) k' = loanLookup m k' := by
  rw [loanInsert]
  by_cases hk : m.any (fun p => p.1 == k)
  · rw [if_pos hk, loanLookup, loanLookup, find?_map_update m k v k' h]
  · rw [if_neg hk, loanLookup, loanLookup, List.find?_append]
    have : ([(k, v)].find? (fun p => p.1 == k')) = none :=
      List.find?_cons_of_neg _ (by simp; exact fun hh => h hh.symm)
    rw [this, Option.or_none]

theorem loanLookup_erase_other (m : List (String × ℤ × ℤ)) (k k' : String) (h : k' ≠ k) :
    loanLookup (loanErase m k) k' = loanLookup m k' := by
  rw [loanErase, loanLookup, loanLookup, find?_filter_other m k k' h]

theorem loanLookup_erase_self (m : List (String × ℤ × ℤ)) (k : String) :
    loanLookup (loanErase m k) k = none := by
  rw [loanErase, loanLookup, find?_filter_self m k]
  rfl

theorem check_out_fields (b : Book) :
    (check_out b).1.book_id = b.book_id ∧ (check_out b).1.title = b.title ∧
      (check_out b).1.author = b.author ∧
      (check_out b).1.total_copies = b.total_copies := by
  rw [check_out]
  split <;> exact ⟨rfl, rfl, rfl, rfl⟩

theorem check_in_fields (b : Book) :
    (check_in b).1.book_id = b.book_id ∧ (check_in b).1.title = b.title ∧
      (check_in b).1.author = b.author ∧
      (check_in b).1.total_copies = b.total_copies := by
  rw [check_in]
  split <;> exact ⟨rfl, rfl, rfl, rfl⟩

/-! ## Case characterizations of issue and return -/

theorem issue_book_none (s : LibState) (q : String) (now : ℤ)
    (hf : find_book s.books q = none) :
    issue_book s q now = (s, .notFound) := by
  rw [issue_book, hf]

theorem issue_book_some_pos (s : LibState) (q : String) (now : ℤ) (i : ℕ) (b : Book)
    (hf : find_book s.books q = some (i, b)) (hav : 0 < b.available_copies) :
    issue_book s q now =
      ({ books := s.books.set i { b with available_copies := b.available_copies - 1 },
         issued := loanInsert s.issued b.book_id (now, now + duePeriod) },
       .issued (now + duePeriod)) := by
  rw [issue_book, hf]
  simp [check_out, hav]

theorem issue_book_some_zero (s : LibState) (q : String) (now : ℤ) (i : ℕ) (b : Book)
    (hf : find_book s.books q = some (i, b)) (hav : ¬ 0 < b.available_copies) :
    issue_book s q now = (s, .allOut b.title) := by
  rw [issue_book, hf]
  simp [check_out, hav]

theorem return_book_none (s : LibState) (q : String) (now : ℤ)
    (hf : find_book s.books q = none) :
    return_book s q now = (s, .notFound) := by
  rw [return_book, hf]

theorem return_book_noloan_repair (s : LibState) (q : String) (now : ℤ) (i : ℕ) (b : Book)
    (hf : find_book s.books q = some (i, b))
    (hl : loanLookup s.issued b.book_id = none)
    (hlt : b.available_copies < b.total_copies) :
    return_book s q now =
      ({ s with books :=
          s.books.set i { b with available_copies := b.available_copies + 1 } },
       .notIssuedRepaired) := by
  rw [return_book, hf]
  simp [hl, check_in, hlt]

theorem return_book_noloan_norepair (s : LibState) (q : String) (now : ℤ) (i : ℕ) (b : Book)
    (hf : find_book s.books q = some (i, b))
    (hl : loanLookup s.issued b.book_id = none)
    (hge : ¬ b.available_copies < b.total_copies) :
    return_book s q now = (s, .notIssuedNoRepair) := by
  rw [return_book, hf]
  simp [hl, hge]

theorem return_book_loan_ok (s : LibState) (q : String) (now : ℤ) (i : ℕ) (b : Book)
    (iss due : ℤ) (hf : find_book s.books q = some (i, b))
    (hl : loanLookup s.issued b.book_id = some (iss, due))
    (hlt : b.available_copies < b.total_copies) :
    return_book s q now =
      ({ books := s.books.set i { b with available_copies := b.available_copies + 1 },
         issued := loanErase s.issued b.book_id },
       .returned (if due < now then Int.fdiv (now - due) 86400 * 10 else 0)) := by
  rw [return_book, hf]
  simp [hl, check_in, hlt]

theorem return_book_loan_fail (s : LibState) (q : String) (now : ℤ) (i : ℕ) (b : Book)
    (iss due : ℤ) (hf : find_book s.books q = some (i, b))
    (hl : loanLookup s.issued b.book_id = some (iss, due))
    (hge : ¬ b.available_copies < b.total_copies) :
    return_book s q now = (s, .cannotReturn) := by
  rw [return_book, hf]
  simp [hl, check_in, hge]

/-! ## Shape of generated id strings -/

theorem natStr_len4 (n : ℕ) (h1 : 1000 ≤ n) (h2 : n ≤ 9999) : (natStr n).length = 4 := by
  have hn : n ≠ 0 := by omega
  show (natChars n).length = 4
  rw [natChars_eq n hn]
  simp only [List.length_reverse, List.length_map]
  rw [Nat.digits_len 10 n (by norm_num) hn]
  have e3 : (10 : ℕ) ^ 3 = 1000 := by norm_num
  have e4 : (10 : ℕ) ^ (3 + 1) = 10000 := by norm_num
  rw [Nat.log_eq_of_pow_le_of_lt_pow (e3 ▸ h1) (e4 ▸ (by omega : n < 10000))]

theorem natStr_all_digit (n : ℕ) : (natStr n).toList.all Char.isDigit = true := by
  show (natChars n).all Char.isDigit = true
  rw [List.all_eq_true]
  exact fun c hc => (natChars_props n c hc).1

/-! ## Claims -/

/-- Preservation contract shared by the two loan operations on a resolved
record `b` at position `i`: collection size unchanged, any position
`j ≠ i` entirely unchanged, the resolved record's id, title, author and
total count unchanged, and any loan key `k` other than the resolved id
unchanged. -/
def opFrame (s s' : LibState) (b : Book) (i j : ℕ) (k : String) : Prop :=
  s'.books.length = s.books.length ∧
  s'.books[j]? = s.books[j]? ∧
  (s'.books[i]?).map (fun x => (x.book_id, x.title, x.author, x.total_copies)) =
    some (b.book_id, b.title, b.author, b.total_copies) ∧
  loanLookup s'.issued k = loanLookup s.issued k

/-- C9: when the query resolves to the record `b` at position `i`, both
`issue_book` and `return_book` modify at most that record's
`available_copies` and the loan entry keyed by its id — every record's
identity fields survive, every other position is untouched, the
collection keeps its length and order, and every other loan key keeps its
value. -/
theorem C9_frame_effect (s : LibState) (q : String) (now : ℤ) (i : ℕ) (b : Book)
    (hf : find_book s.books q = some (i, b)) (j : ℕ) (hij : j ≠ i)
    (k : String) (hk : k ≠ b.book_id) :
    opFrame s (issue_book s q now).1 b i j k ∧
      opFrame s (return_book s q now).1 b i j k := by
  obtain ⟨hi, hib⟩ := find_book_some s.books q i b hf
  have hframe_same : opFrame s s b i j k := by
    refine ⟨rfl, rfl, ?_, rfl⟩
    rw [hib]
    rfl
  have hset : ∀ v : ℤ, opFrame s
      ⟨s.books.set i { b with available_copies := v }, s.issued⟩ b i j k := by
    intro v
    refine ⟨List.length_set s.books i _, List.getElem?_set_ne (Ne.symm hij), ?_, rfl⟩
    rw [List.getElem?_set_eq_of_lt _ hi]
    rfl
  constructor
  · by_cases hav : 0 < b.available_copies
    · rw [issue_book_some_pos s q now i b hf hav]
      refine ⟨(hset _).1, (hset _).2.1, (hset _).2.2.1, ?_⟩
      exact loanLookup_insert_other s.issued b.book_id _ k hk
    · rw [issue_book_some_zero s q now i b hf hav]
      exact hframe_same
  · cases hll : loanLookup s.issued b.book_id with
    | none =>
      by_cases hlt : b.available_copies < b.total_copies
      · rw [return_book_noloan_repair s q now i b hf hll hlt]
        exact hset _
      · rw [return_book_noloan_norepair s q now i b hf hll hlt]
        exact hframe_same
    | some pr =>
      obtain ⟨iss, due⟩ := pr
      by_cases hlt : b.available_copies < b.total_copies
      · rw [return_book_loan_ok s q now i b iss due hf hll hlt]
        refine ⟨(hset _).1, (hset _).2.1, (hset _).2.2.1, ?_⟩
        exact loanLookup_erase_other s.issued b.book_id k hk
      · rw [return_book_loan_fail s q now i b iss due hf hll hlt]
        exact hframe_same

/-- C9 witness: the frame contract applied to a concrete two-book state,
a query resolving to the first book, the other position and another loan
key. -/
theorem C9_frame_effect_witness :
    opFrame ⟨[⟨"1000", "Dune", "Herbert", 3, 2⟩, ⟨"2000", "Emma", "Austen", 1, 1⟩],
        [("2000", (5, 10))]⟩
      (issue_book ⟨[⟨"1000", "Dune", "Herbert", 3, 2⟩, ⟨"2000", "Emma", "Austen", 1, 1⟩],
        [("2000", (5, 10))]⟩ "1000" 0).1
      ⟨"1000", "Dune", "Herbert", 3, 2⟩ 0 1 "2000" ∧
    opFrame ⟨[⟨"1000", "Dune", "Herbert", 3, 2⟩, ⟨"2000", "Emma", "Austen", 1, 1⟩],
        [("2000", (5, 10))]⟩
      (return_book ⟨[⟨"1000", "Dune", "Herbert", 3, 2⟩, ⟨"2000", "Emma", "Austen", 1, 1⟩],
        [("2000", (5, 10))]⟩ "1000" 0).1
      ⟨"1000", "Dune", "Herbert", 3, 2⟩ 0 1 "2000" :=
  C9_frame_effect _ "1000" 0 0 _ (by decide) 1 (by decide) "2000" (by decide)

/-- C5: when the query resolves to a record with no available copy,
`issue_book` reports the explicit all-copies-checked-out failure — a
result distinct from the lookup-miss result — and changes nothing: the
whole state, hence `available_copies` and the loan map, is returned
untouched. -/
theorem C5_issue_conflict (s : LibState) (q : String) (now : ℤ) (i : ℕ) (b : Book)
    (hf : find_book s.books q = some (i, b)) (h0 : b.available_copies = 0) :
    issue_book s q now = (s, IssueResult.allOut b.title) ∧
      IssueResult.allOut b.title ≠ IssueResult.notFound := by
  refine ⟨issue_book_some_zero s q now i b hf (by omega), ?_⟩
  exact fun h => IssueResult.noConfusion h

/-- C5 witness: a concrete state whose only book has no available copy. -/
theorem C5_issue_conflict_witness :
    issue_book ⟨[⟨"1000", "Dune", "Herbert", 3, 0⟩], []⟩ "dune" 7 =
        (⟨[⟨"1000", "Dune", "Herbert", 3, 0⟩], []⟩, IssueResult.allOut "Dune") ∧
      IssueResult.allOut "Dune" ≠ IssueResult.notFound :=
  C5_issue_conflict ⟨[⟨"1000", "Dune", "Herbert", 3, 0⟩], []⟩ "dune" 7 0
    ⟨"1000", "Dune", "Herbert", 3, 0⟩ (by decide) (by decide)

/-- C3: when the query resolves to a record that has a loan entry and the
check-in succeeds, `return_book` removes the loan entry for that id and
reports exactly the specified fine: `max 0 overdueDays * 10`, with
`overdueDays` the whole days by which `now` exceeds the due timestamp and
`0` when not overdue. -/
theorem C3_return_fine (s : LibState) (q : String) (now : ℤ) (i : ℕ) (b : Book)
    (iss due : ℤ) (hf : find_book s.books q = some (i, b))
    (hl : loanLookup s.issued b.book_id = some (iss, due))
    (hc : b.available_copies < b.total_copies) :
    loanLookup (return_book s q now).1.issued b.book_id = none ∧
      (return_book s q now).2 =
        ReturnResult.returned (max 0 (specOverdueDays now due) * 10) := by
  rw [return_book_loan_ok s q now i b iss due hf hl hc]
  refine ⟨loanLookup_erase_self s.issued b.book_id, ?_⟩
  show ReturnResult.returned _ = ReturnResult.returned _
  congr 1
  rw [specOverdueDays]
  by_cases hod : due < now
  · rw [if_pos hod, if_pos hod,
      Int.fdiv_eq_ediv _ (by norm_num : (0:ℤ) ≤ 86400),
      max_eq_right (Int.ediv_nonneg (by omega) (by norm_num))]
  · rw [if_neg hod, if_neg hod]
    simp

/-- C3 witness: a concrete overdue return (200000 seconds past due, two
whole days) on a book with a loan entry; the fine comes out of the
theorem in the specified form. -/
theorem C3_return_fine_witness :
    loanLookup (return_book ⟨[⟨"1000", "Dune", "Herbert", 3, 2⟩],
        [("1000", (0, 1209600))]⟩ "1000" 1409600).1.issued "1000" = none ∧
      (return_book ⟨[⟨"1000", "Dune", "Herbert", 3, 2⟩],
        [("1000", (0, 1209600))]⟩ "1000" 1409600).2 =
        ReturnResult.returned (max 0 (specOverdueDays 1409600 1209600) * 10) :=
  C3_return_fine _ "1000" 1409600 0 ⟨"1000", "Dune", "Herbert", 3, 2⟩ 0 1209600
    (by decide) (by decide) (by decide)

/-- C6: `check_out` succeeds exactly when a copy is available, and then
decrements `available_copies` by exactly one; `check_in` succeeds exactly
when `available_copies` is below `total_copies`, and then increments it
by exactly one; on failure each returns the record unchanged. -/
theorem C6_check_transitions (b : Book) :
    ((check_out b).2 = true ↔ 0 < b.available_copies) ∧
    ((check_out b).2 = true →
      (check_out b).1 = { b with available_copies := b.available_copies - 1 }) ∧
    ((check_out b).2 = false → (check_out b).1 = b) ∧
    ((check_in b).2 = true ↔ b.available_copies < b.total_copies) ∧
    ((check_in b).2 = true →
      (check_in b).1 = { b with available_copies := b.available_copies + 1 }) ∧
    ((check_in b).2 = false → (check_in b).1 = b) := by
  by_cases h1 : 0 < b.available_copies <;>
    by_cases h2 : b.available_copies < b.total_copies <;>
    simp [check_out, check_in, h1, h2]

/-- C6 witness: the characterization applied to a concrete record with
one of two copies available, evaluating both transitions. -/
theorem C6_check_transitions_witness :
    (check_out ⟨"1000", "Dune", "Herbert", 2, 1⟩).1 = ⟨"1000", "Dune", "Herbert", 2, 0⟩ ∧
      (check_in ⟨"1000", "Dune", "Herbert", 2, 1⟩).1 = ⟨"1000", "Dune", "Herbert", 2, 2⟩ := by
  have h := C6_check_transitions ⟨"1000", "Dune", "Herbert", 2, 1⟩
  exact ⟨by rw [h.2.1 (by decide)]; decide, by rw [h.2.2.2.2.1 (by decide)]; decide⟩

/-- C7 counterexample: on the record with `total_copies = 1` and
`available_copies = 0`, `check_out` fails (a no-op) but the following
`check_in` succeeds, leaving `available_copies = 1 ≠ 0` — the
claimed restoration fails without further hypotheses. -/
theorem C7_counterexample :
    (check_in (check_out ⟨"1000", "T", "A", 1, 0⟩).1).1.available_copies ≠
      (⟨"1000", "T", "A", 1, 0⟩ : Book).available_copies := by
  decide

/-- C7 (amended): when the initial record has a copy available and
satisfies `available_copies ≤ total_copies`, `check_out` followed
immediately by `check_in` restores `available_copies` to its prior
value. -/
theorem C7_out_in_restores (b : Book) (h1 : 0 < b.available_copies)
    (h2 : b.available_copies ≤ b.total_copies) :
    (check_in (check_out b).1).1.available_copies = b.available_copies := by
  have h3 : b.available_copies - 1 < b.total_copies := by omega
  simp [check_out, check_in, h1, h3]

/-- C7 witness: the amended restoration on a concrete record with one of
two copies available. -/
theorem C7_out_in_restores_witness :
    (check_in (check_out ⟨"1000", "Dune", "Herbert", 2, 1⟩).1).1.available_copies = 1 :=
  C7_out_in_restores ⟨"1000", "Dune", "Herbert", 2, 1⟩ (by decide) (by decide)

/-- C1 counterexample: loading a persisted row whose counts parse to
integers violating the range (`TotalCopies = "1"`,
`AvailableCopies = "5"`) produces a record with `available_copies = 5 >
total_copies = 1` — construction from untrusted rows does not coerce such
inputs to `(0, 0)`, so the invariant does not hold after every
operation. -/
theorem C1_counterexample :
    load_books [headerRow, ⟨"1000", "T", "A", "1", "5"⟩] = [⟨"1000", "T", "A", 1, 5⟩] ∧
      ¬ bookInv ⟨"1000", "T", "A", 1, 5⟩ := by
  decide

/-- C1 (amended): the invariant `0 ≤ available_copies ≤ total_copies` is
established by construction whenever a copy count fails integer parsing
(both counts are then coerced to `0`), is preserved by `check_out` and
`check_in`, is established by `add_book` for positive validated counts,
and is preserved across whole states by `issue_book` and `return_book`;
but construction stores integer-parseable counts verbatim, so a row whose
counts parse to out-of-range integers yields a violating record (the
counterexample). -/
theorem C1_invariant :
    (∀ id t a tc ac, (pyInt tc = none ∨ pyInt ac = none) →
      bookInv (mkBook id t a tc ac)) ∧
    (∀ b : Book, bookInv b → bookInv (check_out b).1 ∧ bookInv (check_in b).1) ∧
    (∀ (books : List Book) id t a (n : ℤ), 0 < n → (∀ b ∈ books, bookInv b) →
      ∀ b' ∈ add_book books id t a n, bookInv b') ∧
    (∀ (s : LibState) (q : String) (now : ℤ), (∀ b ∈ s.books, bookInv b) →
      (∀ b' ∈ (issue_book s q now).1.books, bookInv b') ∧
      (∀ b' ∈ (return_book s q now).1.books, bookInv b')) := by
  have hout : ∀ b : Book, bookInv b → bookInv (check_out b).1 := by
    intro b hb
    by_cases hc : 0 < b.available_copies
    · rw [check_out, if_pos hc]
      simp only [bookInv] at hb ⊢
      omega
    · rw [check_out, if_neg hc]
      exact hb
  have hin : ∀ b : Book, bookInv b → bookInv (check_in b).1 := by
    intro b hb
    by_cases hc : b.available_copies < b.total_copies
    · rw [check_in, if_pos hc]
      simp only [bookInv] at hb ⊢
      omega
    · rw [check_in, if_neg hc]
      exact hb
  refine ⟨?_, fun b hb => ⟨hout b hb, hin b hb⟩, ?_, ?_⟩
  · intro id t a tc ac h
    have hz : mkBook id t a tc ac = ⟨id, t, a, 0, 0⟩ := by
      rw [mkBook]
      rcases h with h | h
      · rw [h]
      · rw [h]
        cases htc : pyInt tc <;> rfl
    rw [hz]
    exact ⟨le_refl 0, le_refl 0⟩
  · intro books id t a n hn hbooks b' hb'
    rw [add_book] at hb'
    rcases List.mem_append.mp hb' with h | h
    · exact hbooks b' h
    · rw [List.mem_singleton] at h
      subst h
      exact ⟨le_of_lt hn, le_refl n⟩
  · intro s q now hs
    constructor
    · intro b' hb'
      cases hfb : find_book s.books q with
      | none =>
        rw [issue_book_none s q now hfb] at hb'
        exact hs b' hb'
      | some ib =>
        obtain ⟨i, b⟩ := ib
        have hbmem := find_book_mem s.books q i b hfb
        by_cases hav : 0 < b.available_copies
        · rw [issue_book_some_pos s q now i b hfb hav] at hb'
          dsimp at hb'
          rcases List.mem_or_eq_of_mem_set hb' with h | h
          · exact hs b' h
          · subst h
            have hb := hs b hbmem
            simp only [bookInv] at hb ⊢
            omega
        · rw [issue_book_some_zero s q now i b hfb hav] at hb'
          exact hs b' hb'
    · intro b' hb'
      cases hfb : find_book s.books q with
      | none =>
        rw [return_book_none s q now hfb] at hb'
        exact hs b' hb'
      | some ib =>
        obtain ⟨i, b⟩ := ib
        have hbmem := find_book_mem s.books q i b hfb
        have hbinv := hs b hbmem
        cases hll : loanLookup s.issued b.book_id with
        | none =>
          by_cases hlt : b.available_copies < b.total_copies
          · rw [return_book_noloan_repair s q now i b hfb hll hlt] at hb'
            dsimp at hb'
            rcases List.mem_or_eq_of_mem_set hb' with h | h
            · exact hs b' h
            · subst h
              simp only [bookInv] at hbinv ⊢
              omega
          · rw [return_book_noloan_norepair s q now i b hfb hll hlt] at hb'
            exact hs b' hb'
        | some pr =>
          obtain ⟨iss, due⟩ := pr
          by_cases hlt : b.available_copies < b.total_copies
          · rw [return_book_loan_ok s q now i b iss due hfb hll hlt] at hb'
            dsimp at hb'
            rcases List.mem_or_eq_of_mem_set hb' with h | h
            · exact hs b' h
            · subst h
              simp only [bookInv] at hbinv ⊢
              omega
          · rw [return_book_loan_fail s q now i b iss due hfb hll hlt] at hb'
            exact hs b' hb'

/-- C1 witness: the coercion clause applied to a row whose total-copies
field does not parse, and the state clause applied to a concrete issue
that keeps every record inside the invariant. -/
theorem C1_invariant_witness :
    bookInv (mkBook "7" "T" "A" "x" "5") ∧
      ∀ b' ∈ (issue_book ⟨[⟨"1000", "Dune", "Herbert", 3, 3⟩], []⟩ "dune" 0).1.books,
        bookInv b' :=
  ⟨C1_invariant.1 "7" "T" "A" "x" "5" (Or.inl (by decide)),
    (C1_invariant.2.2.2 ⟨[⟨"1000", "Dune", "Herbert", 3, 3⟩], []⟩ "dune" 0
      (by decide)).1⟩

/-- C4 counterexample: issuing with the empty query on a nonempty catalog
is not rejected — the empty string is a substring of every title, so the
first book is resolved, checked out (`available_copies` drops from 3 to
2) and a loan entry is created. -/
theorem C4_counterexample :
    (issue_book ⟨[⟨"1000", "Dune", "Herbert", 3, 3⟩], []⟩ "" 0).1 =
      ⟨[⟨"1000", "Dune", "Herbert", 3, 2⟩], [("1000", (0, 1209600))]⟩ := by
  decide

/-- C4 (amended): only `search_book` treats the empty query as a guard —
it aborts with no output and no state change; `issue_book` and
`return_book` perform no such validation: on any nonempty collection the
empty query resolves to the first record (the empty string is a substring
of every title) and the operation proceeds on it. -/
theorem C4_empty_query (books : List Book) (b : Book) (rest : List Book)
    (hb : books = b :: rest) :
    search_book books "" = none ∧ find_book books "" = some (0, b) := by
  constructor
  · rw [search_book, if_pos rfl]
  · rw [hb, find_book]
    have hq : py_lower "" = "" := rfl
    rw [hq]
    have hm : bookMatches "" b = true := by
      rw [bookMatches]
      have hsub : isSubstring ("".toList) (py_lower b.title).toList = true := by
        rw [isSubstring.eq_def]
        have : List.isPrefixOf ("".toList) (py_lower b.title).toList = true := by
          cases (py_lower b.title).toList <;> rfl
        rw [this, Bool.true_or]
      rw [hsub, Bool.or_true]
    rw [findAux, if_pos hm]

/-- C4 witness: the amended behavior on a concrete one-book catalog. -/
theorem C4_empty_query_witness :
    search_book [⟨"1000", "Dune", "Herbert", 3, 3⟩] "" = none ∧
      find_book [⟨"1000", "Dune", "Herbert", 3, 3⟩] "" =
        some (0, ⟨"1000", "Dune", "Herbert", 3, 3⟩) :=
  C4_empty_query [⟨"1000", "Dune", "Herbert", 3, 3⟩] ⟨"1000", "Dune", "Herbert", 3, 3⟩
    [] rfl

/-- C8: whenever the current ids do not exhaust the 9000-value space —
some value of `[1000, 9999]` stringifies to a free id — and the random
stream stays in `[1000, 9999]` and eventually draws every such value, the
retry loop of `_get_next_id` terminates (the `Nat.find` in `get_next_id`
is well-defined) and returns a four-character all-digit numeric string
whose value lies in `[1000, 9999]` and which is not among the current
record ids. -/
theorem C8_next_id (books : List Book) (r : ℕ → ℕ)
    (hr : ∀ i, 1000 ≤ r i ∧ r i ≤ 9999)
    (hall : ∀ v, 1000 ≤ v → v ≤ 9999 → ∃ i, r i = v)
    (hfree : ∃ v, 1000 ≤ v ∧ v ≤ 9999 ∧ natStr v ∉ existingIds books) :
    ∃ h : ∃ i, natStr (r i) ∉ existingIds books,
      get_next_id books r h ∉ existingIds books ∧
      ∃ n, 1000 ≤ n ∧ n ≤ 9999 ∧ get_next_id books r h = natStr n ∧
        (natStr n).length = 4 ∧ (natStr n).toList.all Char.isDigit = true := by
  obtain ⟨v, hv1, hv2, hv3⟩ := hfree
  obtain ⟨i0, hi0⟩ := hall v hv1 hv2
  have h : ∃ i, natStr (r i) ∉ existingIds books := ⟨i0, by rw [hi0]; exact hv3⟩
  refine ⟨h, Nat.find_spec h, r (Nat.find h), (hr _).1, (hr _).2, rfl, ?_, ?_⟩
  · exact natStr_len4 _ (hr _).1 (hr _).2
  · exact natStr_all_digit _

/-- C8 witness: the empty catalog and the stream cycling through all 9000
values in order satisfy every hypothesis. -/
theorem C8_next_id_witness :
    ∃ h : ∃ i, natStr ((fun i => 1000 + i % 9000) i) ∉ existingIds [],
      get_next_id [] (fun i => 1000 + i % 9000) h ∉ existingIds [] ∧
      ∃ n, 1000 ≤ n ∧ n ≤ 9999 ∧
        get_next_id [] (fun i => 1000 + i % 9000) h = natStr n ∧
        (natStr n).length = 4 ∧ (natStr n).toList.all Char.isDigit = true :=
  C8_next_id [] (fun i => 1000 + i % 9000)
    (fun i => ⟨(by omega : 1000 ≤ 1000 + i % 9000), (by omega : 1000 + i % 9000 ≤ 9999)⟩)
    (fun v hv1 hv2 => ⟨v - 1000, (by omega : 1000 + (v - 1000) % 9000 = v)⟩)
    ⟨1000, by omega, by omega, by simp [existingIds]⟩

/-- C10: `Book.__init__` zeroes both copy counts exactly when one of the
two count fields fails integer parsing; whenever both parse, the parsed
values are stored verbatim with no clamping — in particular the persisted
row with `TotalCopies = "1"`, `AvailableCopies = "5"` yields a record
with `available_copies = 5` strictly above `total_copies = 1`. -/
theorem C10_construction_verbatim :
    (∀ id t a tc ac tv av, pyInt tc = some tv → pyInt ac = some av →
      mkBook id t a tc ac = ⟨id, t, a, tv, av⟩) ∧
    (∀ id t a tc ac, (pyInt tc = none ∨ pyInt ac = none) →
      mkBook id t a tc ac = ⟨id, t, a, 0, 0⟩) ∧
    (mkBook "7" "T" "A" "1" "5" = ⟨"7", "T", "A", 1, 5⟩ ∧ (1 : ℤ) < 5) := by
  refine ⟨?_, ?_, by decide, by decide⟩
  · intro id t a tc ac tv av h1 h2
    rw [mkBook, h1, h2]
  · intro id t a tc ac h
    rw [mkBook]
    rcases h with h | h
    · rw [h]
    · rw [h]
      cases htc : pyInt tc <;> rfl

/-- C10 witness: the verbatim clause applied to a concrete parseable
row. -/
theorem C10_construction_verbatim_witness :
    mkBook "8" "T" "A" "2" "3" = ⟨"8", "T", "A", 2, 3⟩ :=
  C10_construction_verbatim.1 "8" "T" "A" "2" "3" 2 3 (by decide) (by decide)
